import Mathlib

/-!
Shallow embedding of `fix_migrations.py`: a migration-history reconciler.

The script checks that a SQLite database file exists (exiting with status 1
if not), opens a connection, and for each entry of a fixed catalog of
(MigrationId, ProductVersion) pairs runs, inside a per-record `try`:
a SELECT existence check against `__EFMigrationsHistory`, and, when the row
is absent, an INSERT.  A per-record exception is printed and the loop
continues.  After the loop a single `conn.commit()` runs, then
`conn.close()`; any exception after the connect (including a commit
failure) is caught by the outer handler, which prints the error and lets
the script end normally.

The embedding models the database table as an association list of records,
and the places where the external storage may raise (the SELECT, the
INSERT, the connect, the commit) as explicit fault annotations supplied by
the environment, since those failures originate outside the script.
-/

set_option autoImplicit false

namespace HexaBill

/-- One row of `__EFMigrationsHistory`: the `MigrationId` key and the
`ProductVersion` label stored beside it. -/
structure MigrationRecord where
  identifier : String
  versionTag : String
deriving DecidableEq, Repr

/-- The migration-history table: a list of rows, keyed by `identifier`. -/
abbrev Ledger := List MigrationRecord

/-- The SELECT existence check: is a row with this `MigrationId` present? -/
def ledgerExists (L : Ledger) (id : String) : Bool :=
  L.any (fun r => r.identifier == id)

/-- Lookup of the `ProductVersion` stored for an identifier (first match). -/
def ledgerLookup (L : Ledger) (id : String) : Option String :=
  (L.find? (fun r => r.identifier == id)).map (fun r => r.versionTag)

/-- What the external storage does on one record's calls: both calls
succeed, the SELECT raises, or the INSERT raises (when reached). -/
inductive Fault where
  | ok
  | existsFails
  | insertFails
deriving DecidableEq, Repr

/-- The printed per-record outcome: "already exists", "inserted", or the
per-record error message. -/
inductive Outcome where
  | alreadyRecorded (id : String)
  | inserted (id : String)
  | failed (id : String)
deriving DecidableEq, Repr

/-- The identifier an outcome line reports on. -/
def Outcome.ident : Outcome → String
  | .alreadyRecorded id => id
  | .inserted id => id
  | .failed id => id

/-- Whether an outcome is an insert. -/
def Outcome.isInserted : Outcome → Bool
  | .inserted _ => true
  | _ => false

/-- Whether an outcome is a per-record failure. -/
def Outcome.isFailed : Outcome → Bool
  | .failed _ => true
  | _ => false

/-- The body of the `for` loop for one catalog entry: SELECT inside the
`try`; if present, report "already exists"; otherwise INSERT; any raise is
caught and reported as that record's error outcome. -/
def processRecord (L : Ledger) (r : MigrationRecord) (f : Fault) :
    Ledger × Outcome :=
  match f with
  | .existsFails => (L, .failed r.identifier)
  | .ok =>
    if ledgerExists L r.identifier then (L, .alreadyRecorded r.identifier)
    else (L ++ [r], .inserted r.identifier)
  | .insertFails =>
    if ledgerExists L r.identifier then (L, .alreadyRecorded r.identifier)
    else (L, .failed r.identifier)

/-- The reconciliation loop: fold `processRecord` over the catalog (each
entry annotated with what the storage does on its calls), threading the
staged table state and collecting the outcome lines in order. -/
def reconcile (L : Ledger) : List (MigrationRecord × Fault) → Ledger × List Outcome
  | [] => (L, [])
  | (r, f) :: rest =>
    let p := processRecord L r f
    let q := reconcile p.1 rest
    (q.1, p.2 :: q.2)

/-- A catalog whose storage calls all succeed. -/
def annotateOk (cat : List MigrationRecord) : List (MigrationRecord × Fault) :=
  cat.map (fun r => (r, Fault.ok))

/-- Number of inserts a run performed. -/
def countInserts (os : List Outcome) : Nat :=
  (os.filter Outcome.isInserted).length

/-- The catalog hard-coded in the script. -/
def migrations : List MigrationRecord :=
  [⟨"20260218024142_AddExpenseRouteId", "9.0.0"⟩,
   ⟨"20260219062317_AddDamageCategoriesAndReturnExtensions", "9.0.0"⟩]

/-- The environment a run executes in: whether the database file exists,
whether `sqlite3.connect` succeeds, what the storage does on each record's
calls (by catalog position), and whether `conn.commit()` succeeds. -/
structure Env where
  dbExists : Bool
  connectOk : Bool
  faults : Nat → Fault
  commitOk : Bool

/-- Observable result of one process run of the script. -/
structure ScriptResult where
  exitCode : Nat
  connOpened : Bool
  connClosed : Bool
  committed : Bool
  errorReported : Bool
  ledger : Ledger
deriving DecidableEq, Repr

/-- Annotate each catalog entry with the fault at its position. -/
def annotate (f : Nat → Fault) (cat : List MigrationRecord) :
    List (MigrationRecord × Fault) :=
  cat.enum.map (fun p => (p.2, f p.1))

/-- The whole script.  Missing file: print and `exit(1)`.  Failed connect:
the outer handler prints the error and the script ends normally (status 0).
Otherwise run the loop, then commit: on success close the connection and
exit 0; on a commit raise the outer handler prints the error, `conn.close()`
is never reached, and the script still ends with status 0.  The durable
`ledger` only changes when the commit succeeded. -/
def runScript (env : Env) (L : Ledger) : ScriptResult :=
  if env.dbExists = false then
    { exitCode := 1, connOpened := false, connClosed := false,
      committed := false, errorReported := true, ledger := L }
  else if env.connectOk = false then
    { exitCode := 0, connOpened := false, connClosed := false,
      committed := false, errorReported := true, ledger := L }
  else
    let p := reconcile L (annotate env.faults migrations)
    if env.commitOk then
      { exitCode := 0, connOpened := true, connClosed := true,
        committed := true, errorReported := false, ledger := p.1 }
    else
      { exitCode := 0, connOpened := true, connClosed := false,
        committed := false, errorReported := true, ledger := L }

/-! ### Basic lemmas about the loop -/

/-- The staged table never shrinks: one step only appends. -/
theorem processRecord_extends (L : Ledger) (r : MigrationRecord) (f : Fault) :
    ∃ ext, (processRecord L r f).1 = L ++ ext := by
  cases f with
  | existsFails => exact ⟨[], by simp [processRecord]⟩
  | ok =>
    by_cases h : ledgerExists L r.identifier
    · exact ⟨[], by simp [processRecord, h]⟩
    · exact ⟨[r], by simp [processRecord, h]⟩
  | insertFails =>
    by_cases h : ledgerExists L r.identifier
    · exact ⟨[], by simp [processRecord, h]⟩
    · exact ⟨[], by simp [processRecord, h]⟩

/-- The loop only appends to the staged table. -/
theorem reconcile_extends (c : List (MigrationRecord × Fault)) (L : Ledger) :
    ∃ ext, (reconcile L c).1 = L ++ ext := by
  induction c generalizing L with
  | nil => exact ⟨[], by simp [reconcile]⟩
  | cons x rest ih =>
    obtain ⟨r, f⟩ := x
    obtain ⟨e₁, h₁⟩ := processRecord_extends L r f
    obtain ⟨e₂, h₂⟩ := ih (processRecord L r f).1
    refine ⟨e₁ ++ e₂, ?_⟩
    simp only [reconcile]
    rw [h₂, h₁, List.append_assoc]

/-- A present identifier stays present across one step. -/
theorem processRecord_mono (L : Ledger) (r : MigrationRecord) (f : Fault)
    (id : String) (h : ledgerExists L id = true) :
    ledgerExists (processRecord L r f).1 id = true := by
  obtain ⟨ext, he⟩ := processRecord_extends L r f
  rw [he]
  unfold ledgerExists at h ⊢
  simp [List.any_append, h]

/-- A present identifier stays present across the whole loop. -/
theorem reconcile_mono (c : List (MigrationRecord × Fault)) (L : Ledger)
    (id : String) (h : ledgerExists L id = true) :
    ledgerExists (reconcile L c).1 id = true := by
  obtain ⟨ext, he⟩ := reconcile_extends c L
  rw [he]
  unfold ledgerExists at h ⊢
  simp [List.any_append, h]

/-- One outcome line per catalog entry. -/
theorem reconcile_length (c : List (MigrationRecord × Fault)) (L : Ledger) :
    (reconcile L c).2.length = c.length := by
  induction c generalizing L with
  | nil => simp [reconcile]
  | cons x rest ih =>
    obtain ⟨r, f⟩ := x
    simp [reconcile, ih]

/-- The loop distributes over catalog concatenation. -/
theorem reconcile_append (L : Ledger) (xs ys : List (MigrationRecord × Fault)) :
    reconcile L (xs ++ ys) =
      ((reconcile (reconcile L xs).1 ys).1,
       (reconcile L xs).2 ++ (reconcile (reconcile L xs).1 ys).2) := by
  induction xs generalizing L with
  | nil => simp [reconcile]
  | cons x rest ih =>
    obtain ⟨r, f⟩ := x
    simp [reconcile, ih]

/-- A freshly appended row is found by the existence check. -/
theorem ledgerExists_append_self (L : Ledger) (r : MigrationRecord) :
    ledgerExists (L ++ [r]) r.identifier = true := by
  simp [ledgerExists, List.any_append]

/-- After a fault-free run every catalog identifier is present in the
staged table. -/
theorem reconcile_ok_complete (cat : List MigrationRecord) (L : Ledger)
    (r : MigrationRecord) (hr : r ∈ cat) :
    ledgerExists (reconcile L (annotateOk cat)).1 r.identifier = true := by
  induction cat generalizing L with
  | nil => cases hr
  | cons x rest ih =>
    simp only [annotateOk, List.map_cons, reconcile]
    rcases List.mem_cons.mp hr with h | h
    · subst h
      apply reconcile_mono
      cases hx : ledgerExists L r.identifier with
      | true => simp [processRecord, hx]
      | false =>
        simp only [processRecord, hx, Bool.false_eq_true, if_false]
        exact ledgerExists_append_self L r
    · exact ih (processRecord L x Fault.ok).1 h

/-- When every catalog identifier is already present, a fault-free run
stages nothing and reports every record as already recorded. -/
theorem reconcile_ok_allPresent (cat : List MigrationRecord) (L : Ledger)
    (h : ∀ r ∈ cat, ledgerExists L r.identifier = true) :
    reconcile L (annotateOk cat) =
      (L, cat.map (fun r => Outcome.alreadyRecorded r.identifier)) := by
  induction cat generalizing L with
  | nil => simp [annotateOk, reconcile]
  | cons x rest ih =>
    have hx := h x (List.mem_cons_self x rest)
    have ih' := ih L (fun r hr => h r (List.mem_cons_of_mem x hr))
    simp only [annotateOk, List.map_cons] at ih' ⊢
    simp only [reconcile, processRecord, hx, if_true]
    rw [ih']

/-- The outcome line for a record names that record's identifier. -/
theorem processRecord_ident (L : Ledger) (r : MigrationRecord) (f : Fault) :
    ((processRecord L r f).2).ident = r.identifier := by
  cases f with
  | existsFails => rfl
  | ok =>
    cases hx : ledgerExists L r.identifier <;>
      simp [processRecord, hx, Outcome.ident]
  | insertFails =>
    cases hx : ledgerExists L r.identifier <;>
      simp [processRecord, hx, Outcome.ident]

/-- An outcome that is not a failure certifies its identifier is in the
staged table from that step on. -/
theorem reconcile_notFailed_present (c : List (MigrationRecord × Fault))
    (L : Ledger) (i : Nat) (hi : i < c.length)
    (h : ((reconcile L c).2.getD i (.failed "")).isFailed = false) :
    ledgerExists (reconcile L c).1
      ((c.getD i (⟨"", ""⟩, Fault.ok)).1.identifier) = true := by
  induction c generalizing L i with
  | nil => cases hi
  | cons x rest ih =>
    obtain ⟨r, f⟩ := x
    cases i with
    | zero =>
      simp only [reconcile, List.getD_cons_zero] at h ⊢
      cases f with
      | existsFails => simp [processRecord, Outcome.isFailed] at h
      | ok =>
        cases hx : ledgerExists L r.identifier with
        | true =>
          simp only [processRecord, hx, if_true]
          exact reconcile_mono rest L r.identifier hx
        | false =>
          simp only [processRecord, hx, Bool.false_eq_true, if_false]
          exact reconcile_mono rest (L ++ [r]) r.identifier
            (ledgerExists_append_self L r)
      | insertFails =>
        cases hx : ledgerExists L r.identifier with
        | true =>
          simp only [processRecord, hx, if_true]
          exact reconcile_mono rest L r.identifier hx
        | false => simp [processRecord, hx, Outcome.isFailed] at h
    | succ j =>
      simp only [reconcile, List.getD_cons_succ] at h ⊢
      exact ih (processRecord L r f).1 j (Nat.lt_of_succ_lt_succ hi) h

/-- A lookup that succeeds still succeeds, with the same value, after rows
are appended on the right. -/
theorem ledgerLookup_append_of_some (L ext : Ledger) (id v : String)
    (h : ledgerLookup L id = some v) :
    ledgerLookup (L ++ ext) id = some v := by
  induction L with
  | nil => simp [ledgerLookup] at h
  | cons a t ih =>
    cases ha : a.identifier == id with
    | true =>
      simp only [ledgerLookup, List.cons_append, List.find?, ha] at h ⊢
      exact h
    | false =>
      simp only [ledgerLookup, List.cons_append, List.find?, ha] at h ⊢
      exact ih h

/-- An absent record is inserted and the loop continues on the grown
table. -/
theorem reconcile_cons_ok_insert (L : Ledger) (r : MigrationRecord)
    (rest : List (MigrationRecord × Fault))
    (h : ledgerExists L r.identifier = false) :
    reconcile L ((r, Fault.ok) :: rest) =
      ((reconcile (L ++ [r]) rest).1,
       Outcome.inserted r.identifier :: (reconcile (L ++ [r]) rest).2) := by
  simp [reconcile, processRecord, h]

/-- A present record is reported as already recorded and the loop
continues on the unchanged table. -/
theorem reconcile_cons_ok_present (L : Ledger) (r : MigrationRecord)
    (rest : List (MigrationRecord × Fault))
    (h : ledgerExists L r.identifier = true) :
    reconcile L ((r, Fault.ok) :: rest) =
      ((reconcile L rest).1,
       Outcome.alreadyRecorded r.identifier :: (reconcile L rest).2) := by
  simp [reconcile, processRecord, h]

/-- Outcome lines produced by mapping "already recorded" contain no
insert. -/
theorem countInserts_map_alreadyRecorded (cat : List MigrationRecord) :
    countInserts (cat.map (fun r => Outcome.alreadyRecorded r.identifier)) = 0 := by
  induction cat with
  | nil => rfl
  | cons x rest ih =>
    simp only [List.map_cons, countInserts, List.filter_cons,
      Outcome.isInserted, Bool.false_eq_true, if_false]
    exact ih

/-! ### Claim theorems -/

/-- C1: Idempotence of reconciliation: for every catalog and ledger state,
a fault-free run followed by a second fault-free run of the same catalog
performs zero inserts on the second run and leaves the ledger produced by
the first run unchanged. -/
theorem C1_reconcile_idempotent (L : Ledger) (cat : List MigrationRecord) :
    (reconcile (reconcile L (annotateOk cat)).1 (annotateOk cat)).1 =
        (reconcile L (annotateOk cat)).1 ∧
    countInserts
        (reconcile (reconcile L (annotateOk cat)).1 (annotateOk cat)).2 = 0 := by
  have hall : ∀ r ∈ cat,
      ledgerExists (reconcile L (annotateOk cat)).1 r.identifier = true :=
    fun r hr => reconcile_ok_complete cat L r hr
  rw [reconcile_ok_allPresent cat _ hall]
  exact ⟨rfl, countInserts_map_alreadyRecorded cat⟩

/-- C2: Per-record failure isolation: every catalog entry receives an
outcome whatever the faults are (no failure aborts the loop), and when one
record's insert raises, that record's outcome is the caught failure, the
staged table is untouched by it, and the remaining records are processed
exactly as they would have been. -/
theorem C2_failure_isolation :
    (∀ (L : Ledger) (c : List (MigrationRecord × Fault)),
        (reconcile L c).2.length = c.length) ∧
    (∀ (L : Ledger) (b : MigrationRecord)
        (rest : List (MigrationRecord × Fault)),
        ledgerExists L b.identifier = false →
        reconcile L ((b, Fault.insertFails) :: rest) =
          ((reconcile L rest).1,
           Outcome.failed b.identifier :: (reconcile L rest).2)) := by
  constructor
  · exact fun L c => reconcile_length c L
  · intro L b rest hb
    simp [reconcile, processRecord, hb]

/-- Witness for C2 at a concrete catalog: record B's insert raises and
record C is still processed on the unchanged table. -/
theorem C2_failure_isolation_witness :
    reconcile [] [(⟨"B", "1"⟩, Fault.insertFails), (⟨"C", "1"⟩, Fault.ok)] =
      ((reconcile [] [(⟨"C", "1"⟩, Fault.ok)]).1,
       Outcome.failed "B" :: (reconcile [] [(⟨"C", "1"⟩, Fault.ok)]).2) :=
  C2_failure_isolation.2 [] ⟨"B", "1"⟩ [(⟨"C", "1"⟩, Fault.ok)] rfl

/-- C3: Completeness on success: a catalog entry whose processing did not
fail is present in the staged table at the end of the loop, and on the
script path where the single commit succeeds the durable ledger is exactly
that staged table. -/
theorem C3_completeness_on_success :
    (∀ (c : List (MigrationRecord × Fault)) (L : Ledger) (i : Nat),
        i < c.length →
        ((reconcile L c).2.getD i (.failed "")).isFailed = false →
        ledgerExists (reconcile L c).1
          ((c.getD i (⟨"", ""⟩, Fault.ok)).1.identifier) = true) ∧
    (∀ (env : Env) (L : Ledger),
        env.dbExists = true → env.connectOk = true → env.commitOk = true →
        (runScript env L).committed = true ∧
        (runScript env L).ledger =
          (reconcile L (annotate env.faults migrations)).1) := by
  constructor
  · exact fun c L i hi h => reconcile_notFailed_present c L i hi h
  · intro env L hdb hconn hcommit
    simp [runScript, hdb, hconn, hcommit]

/-- Witness for C3: a one-record catalog whose record is inserted, and the
fault-free script run committing the staged table. -/
theorem C3_completeness_on_success_witness :
    ledgerExists (reconcile [] [((⟨"A", "1"⟩ : MigrationRecord), Fault.ok)]).1
        (([((⟨"A", "1"⟩ : MigrationRecord), Fault.ok)].getD 0
          (⟨"", ""⟩, Fault.ok)).1.identifier)
        = true ∧
    ((runScript ⟨true, true, fun _ => Fault.ok, true⟩ []).committed = true ∧
     (runScript ⟨true, true, fun _ => Fault.ok, true⟩ []).ledger =
       (reconcile [] (annotate (fun _ => Fault.ok) migrations)).1) :=
  ⟨C3_completeness_on_success.1 [((⟨"A", "1"⟩ : MigrationRecord), Fault.ok)]
      [] 0 (by decide) (by decide),
   C3_completeness_on_success.2 ⟨true, true, fun _ => Fault.ok, true⟩ []
      rfl rfl rfl⟩

/-- C4: No overwrite: when the ledger already maps X to v₁ and the catalog
lists X again (with any tag v₂, under any faults), after the run X still
maps to v₁; moreover the run only ever appends rows, so no existing row is
modified or deleted. -/
theorem C4_no_overwrite (c : List (MigrationRecord × Fault)) (L : Ledger)
    (X v₁ v₂ : String)
    (_hmem : (⟨X, v₂⟩ : MigrationRecord) ∈ c.map Prod.fst)
    (hv : ledgerLookup L X = some v₁) :
    ledgerLookup (reconcile L c).1 X = some v₁ ∧
    ∃ ext, (reconcile L c).1 = L ++ ext := by
  obtain ⟨ext, he⟩ := reconcile_extends c L
  refine ⟨?_, ext, he⟩
  rw [he]
  exact ledgerLookup_append_of_some L ext X v₁ hv

/-- Witness for C4: X present with tag v1, catalog lists X with tag v2. -/
theorem C4_no_overwrite_witness :
    ledgerLookup (reconcile [⟨"X", "v1"⟩] [(⟨"X", "v2"⟩, Fault.ok)]).1 "X"
        = some "v1" ∧
    ∃ ext, (reconcile [⟨"X", "v1"⟩] [(⟨"X", "v2"⟩, Fault.ok)]).1 =
      [⟨"X", "v1"⟩] ++ ext :=
  C4_no_overwrite [(⟨"X", "v2"⟩, Fault.ok)] [⟨"X", "v1"⟩] "X" "v1" "v2"
    (by simp) rfl

/-- C5: A duplicate identifier within one fault-free run: when the first
occurrence finds the identifier absent and inserts it, the second
occurrence's existence check sees the staged insert and its outcome is
"already recorded", with no second insert. -/
theorem C5_duplicate_resolves (L : Ledger) (pre mid post : List MigrationRecord)
    (r r' : MigrationRecord) (hid : r'.identifier = r.identifier)
    (habsent : ledgerExists (reconcile L (annotateOk pre)).1 r.identifier
        = false) :
    ∃ os₁ os₂ os₃,
      (reconcile L (annotateOk (pre ++ r :: mid ++ r' :: post))).2 =
        os₁ ++ Outcome.inserted r.identifier ::
          (os₂ ++ Outcome.alreadyRecorded r'.identifier :: os₃) ∧
      os₁.length = pre.length ∧ os₂.length = mid.length := by
  have hmap : annotateOk (pre ++ r :: mid ++ r' :: post) =
      annotateOk pre ++ (r, Fault.ok) ::
        (annotateOk mid ++ (r', Fault.ok) :: annotateOk post) := by
    simp [annotateOk]
  rw [hmap, reconcile_append,
    reconcile_cons_ok_insert _ _ _ habsent, reconcile_append]
  have hq : ledgerExists
      (reconcile ((reconcile L (annotateOk pre)).1 ++ [r])
        (annotateOk mid)).1 r'.identifier = true := by
    rw [hid]
    exact reconcile_mono _ _ _
      (ledgerExists_append_self (reconcile L (annotateOk pre)).1 r)
  rw [reconcile_cons_ok_present _ _ _ hq]
  refine ⟨(reconcile L (annotateOk pre)).2,
    (reconcile ((reconcile L (annotateOk pre)).1 ++ [r])
      (annotateOk mid)).2, _, rfl, ?_, ?_⟩ <;>
    simp [reconcile_length, annotateOk]

/-- Witness for C5: the same identifier listed twice against an empty
ledger. -/
theorem C5_duplicate_resolves_witness :
    ∃ os₁ os₂ os₃,
      (reconcile []
          (annotateOk ([] ++ (⟨"A", "1"⟩ : MigrationRecord) ::
            [] ++ (⟨"A", "2"⟩ : MigrationRecord) :: []))).2 =
        os₁ ++ Outcome.inserted "A" ::
          (os₂ ++ Outcome.alreadyRecorded "A" :: os₃) ∧
      os₁.length = ([] : List MigrationRecord).length ∧
      os₂.length = ([] : List MigrationRecord).length :=
  C5_duplicate_resolves [] [] [] [] ⟨"A", "1"⟩ ⟨"A", "2"⟩ rfl rfl

/-- C6 counterexample: with the database file present but the connect
failing, the script reports the error yet its exit status is 0, not the
non-zero result the claim requires. -/
theorem C6_counterexample :
    (runScript ⟨true, false, fun _ => Fault.ok, true⟩ []).errorReported
        = true ∧
    (runScript ⟨true, false, fun _ => Fault.ok, true⟩ []).exitCode = 0 :=
  ⟨rfl, rfl⟩

/-- C6 amended: when the connect or the final commit fails, the outer
handler catches and reports the error, but the script then ends normally
with exit status 0 — no non-zero status is set on these paths. -/
theorem C6_fatal_error_exit_status (env : Env) (L : Ledger)
    (hdb : env.dbExists = true)
    (h : env.connectOk = false ∨ env.commitOk = false) :
    (runScript env L).errorReported = true ∧
    (runScript env L).exitCode = 0 := by
  rcases h with h | h
  · simp [runScript, hdb, h]
  · cases hc : env.connectOk with
    | false => simp [runScript, hdb, hc]
    | true => simp [runScript, hdb, hc, h]

/-- Witness for the amended C6: a commit failure. -/
theorem C6_fatal_error_exit_status_witness :
    (runScript ⟨true, true, fun _ => Fault.ok, false⟩ []).errorReported
        = true ∧
    (runScript ⟨true, true, fun _ => Fault.ok, false⟩ []).exitCode = 0 :=
  C6_fatal_error_exit_status ⟨true, true, fun _ => Fault.ok, false⟩ []
    rfl (Or.inr rfl)

/-- C7: Fatal halt on missing storage: when the database file does not
exist the script exits with status 1 before opening a connection or doing
any reconciliation work, leaving the ledger untouched. -/
theorem C7_missing_storage_halts (env : Env) (L : Ledger)
    (h : env.dbExists = false) :
    runScript env L =
      { exitCode := 1, connOpened := false, connClosed := false,
        committed := false, errorReported := true, ledger := L } := by
  simp [runScript, h]

/-- Witness for C7 at a concrete environment. -/
theorem C7_missing_storage_halts_witness :
    runScript ⟨false, true, fun _ => Fault.ok, true⟩ [] =
      { exitCode := 1, connOpened := false, connClosed := false,
        committed := false, errorReported := true, ledger := [] } :=
  C7_missing_storage_halts ⟨false, true, fun _ => Fault.ok, true⟩ [] rfl

/-- C8 counterexample: a run that opens the connection and whose commit
fails never reaches `conn.close()`: the connection is left open, against
the claim that release happens on every exit path. -/
theorem C8_counterexample :
    (runScript ⟨true, true, fun _ => Fault.ok, false⟩ []).connOpened
        = true ∧
    (runScript ⟨true, true, fun _ => Fault.ok, false⟩ []).connClosed
        = false :=
  ⟨rfl, rfl⟩

/-- C8 amended: once the connection is acquired, it is closed exactly when
the final commit succeeds; on a commit failure the close call is skipped
because the exception jumps to the outer handler. -/
theorem C8_close_only_on_commit_success (env : Env) (L : Ledger)
    (hdb : env.dbExists = true) (hconn : env.connectOk = true) :
    (runScript env L).connOpened = true ∧
    ((runScript env L).connClosed = true ↔ env.commitOk = true) := by
  cases hc : env.commitOk <;> simp [runScript, hdb, hconn, hc]

/-- Witness for the amended C8: the successful-commit path closes the
connection. -/
theorem C8_close_only_on_commit_success_witness :
    (runScript ⟨true, true, fun _ => Fault.ok, true⟩ []).connOpened
        = true ∧
    ((runScript ⟨true, true, fun _ => Fault.ok, true⟩ []).connClosed = true
      ↔ (Env.mk true true (fun _ => Fault.ok) true).commitOk = true) :=
  C8_close_only_on_commit_success ⟨true, true, fun _ => Fault.ok, true⟩ []
    rfl rfl

/-- C9: Strict catalog-order processing: the loop emits exactly one
outcome per catalog entry, and the i-th outcome reports on the i-th
catalog entry's identifier — outcomes appear in catalog order. -/
theorem C9_catalog_order (c : List (MigrationRecord × Fault)) (L : Ledger) :
    (reconcile L c).2.length = c.length ∧
    ∀ i, i < c.length →
      ((reconcile L c).2.getD i (.failed "")).ident =
        (c.getD i (⟨"", ""⟩, Fault.ok)).1.identifier := by
  refine ⟨reconcile_length c L, ?_⟩
  induction c generalizing L with
  | nil => intro i hi; cases hi
  | cons x rest ih =>
    obtain ⟨r, f⟩ := x
    intro i hi
    cases i with
    | zero =>
      simp only [reconcile, List.getD_cons_zero]
      exact processRecord_ident L r f
    | succ j =>
      simp only [reconcile, List.getD_cons_succ]
      exact ih (processRecord L r f).1 j (Nat.lt_of_succ_lt_succ hi)

/-- Witness for C9 at a concrete catalog and index. -/
theorem C9_catalog_order_witness :
    ((reconcile [] [((⟨"A", "1"⟩ : MigrationRecord), Fault.ok)]).2.getD 0
        (.failed "")).ident =
      (([((⟨"A", "1"⟩ : MigrationRecord), Fault.ok)]).getD 0
        (⟨"", ""⟩, Fault.ok)).1.identifier :=
  (C9_catalog_order [((⟨"A", "1"⟩ : MigrationRecord), Fault.ok)] []).2 0
    (by decide)

/-- C10: An error raised by the existence check itself is caught by the
same per-record handler: the record's outcome is the failure, the staged
table is unchanged, and the loop continues; in particular when every
record's check raises (e.g. the history table is missing) the run yields
one failed outcome per record and no mutation, not a fatal abort. -/
theorem C10_check_error_isolated :
    (∀ (L : Ledger) (r : MigrationRecord)
        (rest : List (MigrationRecord × Fault)),
        reconcile L ((r, Fault.existsFails) :: rest) =
          ((reconcile L rest).1,
           Outcome.failed r.identifier :: (reconcile L rest).2)) ∧
    (∀ (L : Ledger) (cat : List MigrationRecord),
        reconcile L (cat.map (fun r => (r, Fault.existsFails))) =
          (L, cat.map (fun r => Outcome.failed r.identifier))) := by
  constructor
  · intro L r rest
    simp [reconcile, processRecord]
  · intro L cat
    induction cat generalizing L with
    | nil => simp [reconcile]
    | cons x rest ih => simp [reconcile, processRecord, ih]

end HexaBill
